import Mathlib

/-!
Verification of the streaming metrics normalization and real-time aggregation
pipeline of the llm-compare-analytics dashboard.

The embedding models the JavaScript sources directly:

* `JsNum` models a JavaScript IEEE-754 double as NaN, an infinity, or an exact
  rational; all arithmetic appearing in the metrics code stays inside exactly
  representable values, so rationals are faithful.  An absent JSON field
  (JavaScript `undefined`) is modelled as `Option.none` and coerces to `nan`
  when it flows into arithmetic, mirroring JavaScript coercion; `undefined`
  and `NaN` behave identically in every operation the sources perform on them
  (`>=` comparisons are false, arithmetic yields NaN, both are falsy).

* `OllamaService.generateCompletion` (src/unnamed/part_008) is modelled as a
  fold over the list of parsed stream lines, each line paired with the wall
  clock at the moment it is handled; the progress reports passed to
  `onProgress` and the final returned metrics are produced explicitly.

* `OllamaService.calculateMetrics` and `estimateTokenCount`
  (src/unnamed/part_013) are modelled as pure rational functions; all of their
  divisions are guarded by positivity tests in the source, so no NaN can arise
  and the trailing `isFinite` clamp is the identity.

* `ComparisonService` (comparison-service.ts) is modelled with the per-model
  network outcome supplied as an environment function `config ↦ Except error
  metrics`; `compareModels` then becomes a total function, which is exactly
  the always-resolves behaviour of the source (every rejection is caught in
  the per-model `catch` block).

* The dashboard's aggregation buffer (ComparisonDashboard.tsx) and the chart
  preprocessor (PerformanceChart.tsx) are modelled over association lists for
  JavaScript objects, with `none` for an absent key and `some none` for an
  explicit `null`.
-/

namespace LlmCompare

/-- A JavaScript number as used by the metrics code: NaN, +Infinity,
    -Infinity, or an exact rational value.  Negative zero is identified with
    zero; the sources never produce `-0`. -/
inductive JsNum where
  | nan : JsNum
  | posInf : JsNum
  | negInf : JsNum
  | num : ℚ → JsNum
deriving DecidableEq, Repr

namespace JsNum

/-- JavaScript truthiness of a number: `NaN` and `0` are falsy. -/
def toBool : JsNum → Bool
  | nan => false
  | posInf => true
  | negInf => true
  | num q => if q = 0 then false else true

/-- JavaScript `isFinite`. -/
def isFinite : JsNum → Bool
  | num _ => true
  | _ => false

/-- IEEE-754 negation. -/
def neg : JsNum → JsNum
  | nan => nan
  | posInf => negInf
  | negInf => posInf
  | num q => num (-q)

/-- IEEE-754 addition. -/
def add : JsNum → JsNum → JsNum
  | nan, _ => nan
  | _, nan => nan
  | posInf, negInf => nan
  | posInf, _ => posInf
  | negInf, posInf => nan
  | negInf, _ => negInf
  | num _, posInf => posInf
  | num _, negInf => negInf
  | num a, num b => num (a + b)

/-- IEEE-754 subtraction, `a - b = a + (-b)`. -/
def sub (a b : JsNum) : JsNum := add a (neg b)

/-- IEEE-754 division (zero treated as +0: the sources never form `-0`). -/
def div : JsNum → JsNum → JsNum
  | nan, _ => nan
  | _, nan => nan
  | posInf, posInf => nan
  | posInf, negInf => nan
  | negInf, posInf => nan
  | negInf, negInf => nan
  | posInf, num b => if b < 0 then negInf else posInf
  | negInf, num b => if b < 0 then posInf else negInf
  | num _, posInf => num 0
  | num _, negInf => num 0
  | num a, num b =>
    if b = 0 then (if a = 0 then nan else if 0 < a then posInf else negInf)
    else num (a / b)

/-- JavaScript `Math.max(0, x)`: `NaN` propagates. -/
def max0 : JsNum → JsNum
  | nan => nan
  | posInf => posInf
  | negInf => num 0
  | num q => num (max 0 q)

/-- JavaScript `>=` on numbers: any comparison involving NaN is false. -/
def ge : JsNum → JsNum → Bool
  | nan, _ => false
  | _, nan => false
  | posInf, _ => true
  | negInf, negInf => true
  | negInf, _ => false
  | num _, posInf => false
  | num _, negInf => true
  | num a, num b => decide (b ≤ a)

/-- JavaScript `<` on numbers: any comparison involving NaN is false. -/
def lt : JsNum → JsNum → Bool
  | nan, _ => false
  | _, nan => false
  | posInf, _ => false
  | negInf, negInf => false
  | negInf, _ => true
  | num _, posInf => true
  | num _, negInf => false
  | num a, num b => decide (a < b)

/-- JavaScript `a || b` on numbers: `b` when `a` is falsy. -/
def orElse (a b : JsNum) : JsNum := if a.toBool then a else b

end JsNum

/-- A JSON field holding a nonnegative integer, absent (`undefined`) when
    `none`; reading it into arithmetic yields NaN exactly as JavaScript
    coerces `undefined`. -/
def optToJs : Option Nat → JsNum
  | none => JsNum.nan
  | some n => JsNum.num n

/-- JavaScript `o || d` for an optional nonnegative integer against a default:
    an absent or zero value is falsy. -/
def optOrDefault (o : Option Nat) (d : Nat) : Nat :=
  match o with
  | none => d
  | some n => if n = 0 then d else n

/-- `OllamaEndpointConfig` (model-config types): connection parameters of one
    Ollama model run. -/
structure OllamaEndpointConfig where
  id : String
  name : String
  enabled : Bool
  baseUrl : String
  modelName : String
  temperature : Option ℚ := none
  maxTokens : Option Nat := none
  context_size : Option Nat := none
  threads : Option Nat := none
deriving DecidableEq, Repr

/-- `ModelMetrics`: the canonical metrics record produced for one generation
    step or one finished generation. -/
structure ModelMetrics where
  responseTime : JsNum
  tokensPerSecond : JsNum
  totalTokens : JsNum
  promptTokens : JsNum
  completionTokens : JsNum
  processingTime : JsNum
  contextSize : Option Nat := none
deriving DecidableEq, Repr

/-- One parsed line of the newline-delimited JSON stream answered by
    `/api/generate`, together with the wall clock at the moment the line is
    handled.  `none` models an absent field.  `now_ms` is
    `performance.now() - startTime` in milliseconds when the line is
    processed (a model input: the scheduler decides it). -/
structure StreamChunk where
  response : String
  done : Bool
  eval_count : Option Nat := none
  eval_duration : Option Nat := none
  prompt_eval_count : Option Nat := none
  prompt_eval_duration : Option Nat := none
  total_duration : Option Nat := none
  now_ms : ℚ := 0
deriving DecidableEq, Repr

/-- The `lastStats` object captured from the terminal stream record
    (part_008 lines 128-134); initially `{}`, i.e. every read yields
    `undefined`. -/
structure LastStats where
  total_duration : Option Nat := none
  eval_count : Option Nat := none
  eval_duration : Option Nat := none
  prompt_eval_count : Option Nat := none
  prompt_eval_duration : Option Nat := none
deriving DecidableEq, Repr

/-- The mutable locals of `generateCompletion` (part_008 lines 61-65). -/
structure GenState where
  totalTokens : JsNum := JsNum.num 0
  completionTokens : JsNum := JsNum.num 0
  promptTokens : JsNum := JsNum.num 0
  lastStats : LastStats := {}
  fullText : String := ""
deriving DecidableEq, Repr

/-- The negative-prompt-token fix (part_008 lines 144-151): from the raw
    `prompt_eval_count` and `eval_count` fields, the new
    `(promptTokens, totalTokens)` pair. -/
def promptFix (pec ec : Option Nat) : JsNum × JsNum :=
  if JsNum.ge (optToJs pec) (optToJs ec) then
    (JsNum.max0 (JsNum.sub (optToJs pec) (optToJs ec)), optToJs pec)
  else
    let p := JsNum.max0 (optToJs pec)
    (p, JsNum.add p (optToJs ec))

/-- The body of the `for (const line of lines)` loop of
    `OllamaService.generateCompletion` (part_008 lines 122-172) for one
    successfully parsed line: the updated locals, together with the
    `(progress, metrics)` pair passed to `onProgress`, when any. -/
def chunkStep (config : OllamaEndpointConfig) (st : GenState) (c : StreamChunk) :
    GenState × Option (ℚ × ModelMetrics) :=
  let st1 := { st with fullText := st.fullText ++ c.response }
  let st2 :=
    if c.done then
      { st1 with lastStats :=
        { total_duration := c.total_duration
          eval_count := c.eval_count
          eval_duration := c.eval_duration
          prompt_eval_count := c.prompt_eval_count
          prompt_eval_duration := c.prompt_eval_duration } }
    else st1
  if (optToJs c.eval_count).toBool then
    let timeSinceStart : ℚ := c.now_ms / 1000
    let completionTokens := optToJs c.eval_count
    let pt := promptFix c.prompt_eval_count c.eval_count
    let metrics : ModelMetrics :=
      { responseTime := JsNum.num (timeSinceStart * 1000)
        tokensPerSecond :=
          JsNum.div completionTokens
            (JsNum.orElse (JsNum.div (optToJs c.eval_duration) (JsNum.num 1000000000))
              (JsNum.num timeSinceStart))
        totalTokens := pt.2
        promptTokens := pt.1
        completionTokens := completionTokens
        processingTime := JsNum.div (optToJs c.total_duration) (JsNum.num 1000000000) }
    let progress : ℚ := (c.eval_count.getD 0 : ℚ) / (optOrDefault config.maxTokens 128 : ℚ)
    ({ st2 with completionTokens := completionTokens, promptTokens := pt.1, totalTokens := pt.2 },
     some (min progress 0.99, metrics))
  else (st2, none)

/-- The stream-reading loop of `generateCompletion`: fold `chunkStep` over the
    parsed lines, collecting the intermediate progress reports. -/
def runChunks (config : OllamaEndpointConfig) :
    GenState → List StreamChunk → GenState × List (ℚ × ModelMetrics)
  | st, [] => (st, [])
  | st, c :: cs =>
    let r := chunkStep config st c
    let rest := runChunks config r.1 cs
    (rest.1,
      match r.2 with
      | some pm => pm :: rest.2
      | none => rest.2)

/-- The tail of `generateCompletion` (part_008 lines 175-196): the final,
    authoritative metrics computed after the stream ends.  `endMs` is
    `endTime - startTime` in milliseconds. -/
def finalMetrics (config : OllamaEndpointConfig) (st : GenState) (endMs : ℚ) : ModelMetrics :=
  let ls := st.lastStats
  let responseTime :=
    if (optToJs ls.total_duration).toBool then
      JsNum.div (optToJs ls.total_duration) (JsNum.num 1000000)
    else JsNum.num endMs
  let processingTime :=
    JsNum.orElse
      (JsNum.div (JsNum.add (optToJs ls.prompt_eval_duration) (optToJs ls.eval_duration))
        (JsNum.num 1000000000))
      (JsNum.num (endMs / 1000))
  let promptTokens :=
    if JsNum.lt st.promptTokens (JsNum.num 0) then JsNum.num 0 else st.promptTokens
  let totalTokens := JsNum.add promptTokens st.completionTokens
  let tokensPerSecond :=
    JsNum.div st.completionTokens
      (JsNum.orElse (JsNum.div (optToJs ls.eval_duration) (JsNum.num 1000000000)) processingTime)
  { responseTime := responseTime
    tokensPerSecond := if tokensPerSecond.isFinite then tokensPerSecond else JsNum.num 0
    totalTokens := totalTokens
    promptTokens := promptTokens
    completionTokens := st.completionTokens
    processingTime := processingTime
    contextSize := config.context_size }

/-- The all-zero metrics of the unconditional initial progress report
    (part_008 lines 80-87); the object literal carries no `contextSize` key. -/
def zeroMetrics : ModelMetrics :=
  { responseTime := JsNum.num 0
    tokensPerSecond := JsNum.num 0
    totalTokens := JsNum.num 0
    promptTokens := JsNum.num 0
    completionTokens := JsNum.num 0
    processingTime := JsNum.num 0 }

/-- `OllamaService.generateCompletion` (part_008 lines 58-225) on a list of
    successfully parsed stream lines: the full sequence of progress reports
    (initial ~10% report, one per counted chunk, final 100% report) together
    with the returned final metrics. -/
def generateCompletion (config : OllamaEndpointConfig) (chunks : List StreamChunk)
    (endMs : ℚ) : List (ℚ × ModelMetrics) × ModelMetrics :=
  let r := runChunks config {} chunks
  let m := finalMetrics config r.1 endMs
  ((0.1, zeroMetrics) :: r.2 ++ [(1, m)], m)

/-- The spec's `Metrics` invariant: nonnegative token counts, consistent
    total, finite nonnegative throughput. -/
def metricsOk (m : ModelMetrics) : Prop :=
  JsNum.ge m.promptTokens (JsNum.num 0) = true ∧
  JsNum.ge m.completionTokens (JsNum.num 0) = true ∧
  m.totalTokens = JsNum.add m.promptTokens m.completionTokens ∧
  m.tokensPerSecond.isFinite = true ∧
  JsNum.ge m.tokensPerSecond (JsNum.num 0) = true

instance (m : ModelMetrics) : Decidable (metricsOk m) := by
  unfold metricsOk; infer_instance

/-- The loop invariant of `generateCompletion`'s token locals: both are
    plain nonnegative numbers (never NaN or an infinity). -/
def stateTokensOk (st : GenState) : Prop :=
  (∃ cq : ℚ, 0 ≤ cq ∧ st.completionTokens = JsNum.num cq) ∧
  (∃ pq : ℚ, 0 ≤ pq ∧ st.promptTokens = JsNum.num pq)

/-! ## The metrics corrector `OllamaService.calculateMetrics` (src/unnamed/part_013)

This is the record-level corrector of the spec's §4.1: a pure function from
one raw statistics record, an elapsed wall time and a text to a canonical
`ModelMetrics`.  In the source every field access is guarded by an
`!== undefined` presence test and every division by a positivity test, so the
whole computation stays inside finite rationals and the trailing
`isFinite` clamp of the source (part_013 lines 168-171) is the identity. -/

/-- `OllamaStats` (part_013 lines 40-49): the raw, all-optional provider
    statistics record. -/
structure OllamaStats where
  total_duration : Option Nat := none
  load_duration : Option Nat := none
  sample_count : Option Nat := none
  sample_duration : Option Nat := none
  prompt_eval_count : Option Nat := none
  prompt_eval_duration : Option Nat := none
  eval_count : Option Nat := none
  eval_duration : Option Nat := none
deriving DecidableEq, Repr

/-- `OllamaService.estimateTokenCount` (part_013 lines 106-109):
    `Math.ceil(text.length / 4)`, i.e. `⌈length/4⌉` over naturals. -/
def estimateTokenCount (text : String) : Nat := (text.length + 3) / 4

/-- `OllamaService.calculateMetrics` (part_013 lines 111-197).  All branches
    are presence-guarded, so the arithmetic is plain rational arithmetic. -/
def calculateMetrics (config : OllamaEndpointConfig) (stats : OllamaStats)
    (responseTime : ℚ) (text : String) : ModelMetrics :=
  let processingTime : ℚ :=
    match stats.eval_duration, stats.prompt_eval_duration with
    | some ed, some pd => ((ed : ℚ) + (pd : ℚ)) / 1000000000
    | _, _ => responseTime / 1000
  let completionTokens : ℚ :=
    match stats.eval_count with
    | some ec => (ec : ℚ)
    | none => (estimateTokenCount text : ℚ)
  let ptt : ℚ × ℚ :=
    match stats.prompt_eval_count with
    | some pec =>
      if completionTokens ≤ (pec : ℚ) then
        (max 0 ((pec : ℚ) - completionTokens), (pec : ℚ))
      else
        (max 0 (pec : ℚ), max 0 (pec : ℚ) + completionTokens)
    | none =>
      ((estimateTokenCount text : ℚ), (estimateTokenCount text : ℚ) + completionTokens)
  let promptTokens : ℚ := if ptt.1 < 0 then 0 else ptt.1
  let totalTokens : ℚ := ptt.2
  let tokensPerSecond : ℚ :=
    if 0 < processingTime ∧ 0 < completionTokens then completionTokens / processingTime
    else if 0 < processingTime ∧ 0 < totalTokens then totalTokens / processingTime
    else 0
  { responseTime := JsNum.num responseTime
    tokensPerSecond := JsNum.num tokensPerSecond
    totalTokens := JsNum.num totalTokens
    promptTokens := JsNum.num promptTokens
    completionTokens := JsNum.num completionTokens
    processingTime := JsNum.num processingTime
    contextSize := config.context_size }

/-! ## The run orchestrator `ComparisonService` (comparison-service.ts)

The per-model network interaction is abstracted into an environment function
`config ↦ Except errorMessage metrics`; everything the orchestrator does with
the outcomes is modelled exactly.  Error messages are collected in launch
order (the source pushes them into a shared array as the awaits settle; the
claims only depend on the collection's length).  The service-instance cache
lookup (comparison-service.ts lines 95-106 and 168-179) does not influence
the returned result once outcomes are an environment parameter, so it is not
modelled beyond the `services` field itself. -/

/-- `ApiConfig` (api-config.ts): an OpenAI-compatible endpoint
    configuration. -/
structure ApiConfig where
  id : String
  name : String
  enabled : Bool
  provider : String
  modelName : String
deriving DecidableEq, Repr

/-- `ProviderConfigs`: the stored provider configuration sets. -/
structure ProviderConfigs where
  ollama : List OllamaEndpointConfig
  api : List ApiConfig
deriving DecidableEq, Repr

/-- The `ComparisonService` singleton's state: the stored configs and the
    pre-instantiated services (identified here by the configs they were
    constructed from). -/
structure ComparisonServiceState where
  configs : ProviderConfigs
  services : ProviderConfigs
deriving DecidableEq, Repr

/-- The freshly constructed service (comparison-service.ts lines 21-30). -/
def ComparisonServiceState.new : ComparisonServiceState :=
  { configs := { ollama := [], api := [] }, services := { ollama := [], api := [] } }

/-- `ComparisonService.updateConfigs` (comparison-service.ts lines 39-51):
    store the configs and reinstantiate services for the enabled ones only. -/
def updateConfigs (_st : ComparisonServiceState) (configs : ProviderConfigs) :
    ComparisonServiceState :=
  { configs := configs
    services :=
      { ollama := configs.ollama.filter (·.enabled)
        api := configs.api.filter (·.enabled) } }

/-- `ComparisonService.getActiveConfigs` (comparison-service.ts lines
    277-279): returns the stored configs as they are. -/
def getActiveConfigs (st : ComparisonServiceState) : ProviderConfigs := st.configs

/-- `ModelResponse`: one model's entry in the comparison result. -/
structure ModelResponse where
  id : String
  provider : String
  model : String
  text : String
  metrics : ModelMetrics
  error : Option String := none
deriving DecidableEq, Repr

/-- The zeroed metrics of an error response (comparison-service.ts lines
    134-140 and 207-213); the source object literal omits `processingTime`
    and `contextSize`, modelled as NaN (`undefined` in arithmetic) and
    `none`. -/
def errorMetrics : ModelMetrics :=
  { responseTime := JsNum.num 0
    tokensPerSecond := JsNum.num 0
    totalTokens := JsNum.num 0
    promptTokens := JsNum.num 0
    completionTokens := JsNum.num 0
    processingTime := JsNum.nan }

/-- One Ollama model's mapped promise (comparison-service.ts lines 76-146):
    the response and, when the run failed, the message pushed onto the shared
    error list. -/
def ollamaRun (config : OllamaEndpointConfig) :
    Except String ModelMetrics → ModelResponse × Option String
  | Except.ok metrics =>
    ({ id := config.id, provider := "ollama", model := config.modelName
       text := "Response text will be available in the final result"
       metrics := metrics }, none)
  | Except.error msg =>
    ({ id := config.id, provider := "ollama", model := config.modelName
       text := "", metrics := errorMetrics, error := some msg },
     some ("Error with Ollama model " ++ config.modelName ++ ": " ++ msg))

/-- One API model's mapped promise (comparison-service.ts lines 149-219). -/
def apiRun (config : ApiConfig) :
    Except String ModelMetrics → ModelResponse × Option String
  | Except.ok metrics =>
    ({ id := config.id, provider := config.provider, model := config.modelName
       text := "Response text will be available in the final result"
       metrics := metrics }, none)
  | Except.error msg =>
    ({ id := config.id, provider := config.provider, model := config.modelName
       text := "", metrics := errorMetrics, error := some msg },
     some ("Error with API model " ++ config.modelName ++ ": " ++ msg))

/-- Launch one stream consumer per Ollama config and collect responses and
    pushed error messages. -/
def runOllamaModels (outcome : OllamaEndpointConfig → Except String ModelMetrics) :
    List OllamaEndpointConfig → List ModelResponse × List String
  | [] => ([], [])
  | config :: rest =>
    let r := ollamaRun config (outcome config)
    let rs := runOllamaModels outcome rest
    (r.1 :: rs.1,
      match r.2 with
      | some e => e :: rs.2
      | none => rs.2)

/-- Launch one consumer per API config and collect responses and errors. -/
def runApiModels (outcome : ApiConfig → Except String ModelMetrics) :
    List ApiConfig → List ModelResponse × List String
  | [] => ([], [])
  | config :: rest =>
    let r := apiRun config (outcome config)
    let rs := runApiModels outcome rest
    (r.1 :: rs.1,
      match r.2 with
      | some e => e :: rs.2
      | none => rs.2)

/-- `ComparisonResult` as assembled at comparison-service.ts lines 231-237. -/
structure ComparisonResult where
  prompt : String
  timestamp : String
  responses : List ModelResponse
  totalTime : ℚ
  errors : Option (List String)
deriving DecidableEq, Repr

/-- `ComparisonService.compareModels` (comparison-service.ts lines 53-249):
    fan the prompt out over `getActiveConfigs()`, catching each model's
    failure locally. -/
def compareModels (st : ComparisonServiceState) (prompt : String)
    (ollamaOutcome : OllamaEndpointConfig → Except String ModelMetrics)
    (apiOutcome : ApiConfig → Except String ModelMetrics)
    (timestamp : String) (totalTime : ℚ) : ComparisonResult :=
  let activeConfigs := getActiveConfigs st
  let o := runOllamaModels ollamaOutcome activeConfigs.ollama
  let a := runApiModels apiOutcome activeConfigs.api
  let errors := o.2 ++ a.2
  { prompt := prompt
    timestamp := timestamp
    responses := o.1 ++ a.1
    totalTime := totalTime
    errors := if errors.length > 0 then some errors else none }

/-- Whether a per-model outcome is a failure. -/
def isFailure : Except String ModelMetrics → Bool
  | Except.error _ => true
  | Except.ok _ => false

/-! ## The dashboard throttle (ComparisonDashboard.tsx lines 392-406)

`handleCompare` wraps each model's `onProgress` in a rate gate: a report at
wall clock `now` updates the `modelProgress` state only when
`now - lastProgressUpdate > 50`, with `lastProgressUpdate` initialised to 0;
an accepted report sets `lastProgressUpdate = now`.  The model keeps just the
invocation times. -/

/-- The times (values of `performance.now()`) of the reports that pass the
    gate, starting from a given `lastProgressUpdate`. -/
def acceptedFrom (last : ℚ) : List ℚ → List ℚ
  | [] => []
  | t :: ts => if 50 < t - last then t :: acceptedFrom t ts else acceptedFrom last ts

/-- The accepted report times of one model run (`lastProgressUpdate`
    starts at 0). -/
def acceptedUpdates (ts : List ℚ) : List ℚ := acceptedFrom 0 ts

/-! ## The time-series aggregation buffer (ComparisonDashboard.tsx)

`performanceHistory` is appended to from two places: the 50ms interval tick
(lines 238-259), which truncates to the most recent `maxPoints` entries via
`slice(-maxPoints)`, and the `model-progress` event handler (lines 279-292),
which appends without truncating. -/

/-- A `PerformanceDataPoint`: a timestamp (milliseconds; the ISO round trip
    is the identity on the instant) and the model-name-keyed numeric
    values. -/
structure PerfPoint where
  timestamp : ℚ
  values : List (String × ℚ)
deriving DecidableEq, Repr

/-- The aggregation bound (ComparisonDashboard.tsx line 248). -/
def maxPoints : Nat := 100

/-- The tick-path append (lines 246-255): append, then keep the last
    `maxPoints` points when over the bound. -/
def tickAppend (prev : List PerfPoint) (p : PerfPoint) : List PerfPoint :=
  let newHistory := prev ++ [p]
  if newHistory.length > maxPoints then newHistory.drop (newHistory.length - maxPoints)
  else newHistory

/-- The progress-event append (line 290): plain append, no eviction. -/
def progressAppend (prev : List PerfPoint) (p : PerfPoint) : List PerfPoint :=
  prev ++ [p]

/-- A buffer mutation: a tick append or a progress-event append. -/
inductive AggEvent where
  | tick : PerfPoint → AggEvent
  | progress : PerfPoint → AggEvent
deriving DecidableEq, Repr

/-- Apply one buffer mutation. -/
def applyEvent (h : List PerfPoint) : AggEvent → List PerfPoint
  | AggEvent.tick p => tickAppend h p
  | AggEvent.progress p => progressAppend h p

/-- Apply a sequence of buffer mutations in order. -/
def applyEvents (h : List PerfPoint) (es : List AggEvent) : List PerfPoint :=
  es.foldl applyEvent h

/-! ## The chart preprocessor `processedData` (PerformanceChart.tsx lines 24-129)

Points are JavaScript objects: association lists with at most one binding per
key, read through `List.lookup`.  An output point's value is `none` for an
absent key (`undefined`) and `some none` for an explicit `null`. -/

/-- A processed chart point: every value is a number (`some (some v)`) or a
    `null` gap marker (`some none` when looked up). -/
structure NormPoint where
  timestamp : ℚ
  values : List (String × Option ℚ)
deriving DecidableEq, Repr

/-- JavaScript property read `point[key]`: `none` = `undefined`,
    `some none` = `null`, `some (some v)` = a number. -/
def NormPoint.read (p : NormPoint) (k : String) : Option (Option ℚ) :=
  p.values.lookup k

/-- A raw buffer point viewed as an output point (the single-point branch
    returns the input object unchanged). -/
def toNormPoint (p : PerfPoint) : NormPoint :=
  ⟨p.timestamp, p.values.map (fun kv => (kv.1, some kv.2))⟩

/-- Stable insertion of a point into a list sorted by timestamp (JavaScript
    `Array.prototype.sort` with the timestamp comparator is stable). -/
def insertByTime (p : PerfPoint) : List PerfPoint → List PerfPoint
  | [] => [p]
  | q :: qs => if q.timestamp < p.timestamp then q :: insertByTime p qs else p :: q :: qs

/-- `[...data].sort((a, b) => ta - tb)` (lines 52-54). -/
def sortByTime (l : List PerfPoint) : List PerfPoint := l.foldr insertByTime []

/-- The key filter of lines 61: with no selection every key passes. -/
def keyAllowed (selectedModels : List String) (k : String) : Bool :=
  selectedModels.isEmpty || selectedModels.contains k

/-- Add one point's keys to the insertion-ordered key set (lines 58-65). -/
def addPointKeys (selectedModels : List String) (acc : List String) (p : PerfPoint) :
    List String :=
  p.values.foldl
    (fun acc kv =>
      if keyAllowed selectedModels kv.1 && !(acc.contains kv.1) then acc ++ [kv.1] else acc)
    acc

/-- `allModelKeys`: the union of model keys over all points, in insertion
    order. -/
def allModelKeys (selectedModels : List String) (pts : List PerfPoint) : List String :=
  pts.foldl (addPointKeys selectedModels) []

/-- Normalisation of one point (lines 68-74):
    `newPoint[key] = point[key] !== undefined ? point[key] : null`. -/
def normalizePoint (keys : List String) (p : PerfPoint) : NormPoint :=
  ⟨p.timestamp, keys.map (fun k => (k, p.values.lookup k))⟩

/-- `timeStep` (line 49): 50ms between interpolated points. -/
def timeStep : ℚ := 50

/-- `cubicInterpolate` (lines 125-129): cubic ease
    `t = progress²(3 - 2·progress)`, value `start + (end - start)·t`. -/
def cubicInterpolate (start finish progress : ℚ) : ℚ :=
  let t := progress * progress * (3 - 2 * progress)
  start + (finish - start) * t

/-- `Math.min(Math.floor(timeDiff / timeStep), 20)` (line 90). -/
def interpSteps (timeDiff : ℚ) : Nat := min (Int.toNat ⌊timeDiff / timeStep⌋) 20

/-- One synthetic value (lines 99-111): cubic ease when both endpoints are
    numbers; otherwise the current point's value when the key is defined. -/
def interpValue (cur nxt : NormPoint) (progress : ℚ) (k : String) : Option (Option ℚ) :=
  match cur.read k, nxt.read k with
  | some (some a), some (some b) => some (some (cubicInterpolate a b progress))
  | some v, _ => some v
  | none, _ => none

/-- The synthetic points inserted between two consecutive normalised points
    (lines 83-115): only when the gap exceeds `2×timeStep`, one point per
    loop step `1 ≤ step < steps`. -/
def interpPoints (keys : List String) (cur nxt : NormPoint) : List NormPoint :=
  let timeDiff := nxt.timestamp - cur.timestamp
  if timeStep * 2 < timeDiff then
    let steps := interpSteps timeDiff
    (List.range' 1 (steps - 1)).map (fun (step : ℕ) =>
      let progress : ℚ := (step : ℚ) / (steps : ℚ)
      ⟨cur.timestamp + timeDiff * progress,
       keys.filterMap (fun k => (interpValue cur nxt progress k).map (fun v => (k, v)))⟩)
  else []

/-- The main loop (lines 76-119): each real point followed by its gap's
    synthetic points, then the last real point. -/
def buildPoints (keys : List String) : List NormPoint → List NormPoint
  | [] => []
  | [p] => [p]
  | p :: q :: rest => p :: (interpPoints keys p q ++ buildPoints keys (q :: rest))

/-- `processedData` (PerformanceChart.tsx lines 24-122): degenerate cases,
    sort, key-union normalisation, gap interpolation.  (The `modelKeys`
    local of lines 28-33 is computed but never read in the source and is
    omitted.) -/
def processedData (selectedModels : List String) (data : List PerfPoint) :
    List NormPoint :=
  match data with
  | [] => []
  | [firstPoint] =>
    [toNormPoint firstPoint,
     { toNormPoint firstPoint with timestamp := firstPoint.timestamp + 100 }]
  | _ =>
    let sortedData := sortByTime data
    let keys := allModelKeys selectedModels sortedData
    let normalizedData := sortedData.map (normalizePoint keys)
    buildPoints keys normalizedData

/-! ## Concrete example data used by witnesses and counterexamples -/

/-- A representative enabled Ollama configuration. -/
def exampleConfig : OllamaEndpointConfig :=
  { id := "ollama-1", name := "llama2 local", enabled := true
    baseUrl := "http://localhost:11434", modelName := "llama2" }

/-- A second enabled configuration, targeting a failing endpoint. -/
def exampleConfigB : OllamaEndpointConfig :=
  { id := "ollama-2", name := "mistral local", enabled := true
    baseUrl := "http://localhost:11435", modelName := "mistral" }

/-- A disabled configuration. -/
def disabledConfig : OllamaEndpointConfig :=
  { id := "ollama-3", name := "switched off", enabled := false
    baseUrl := "http://localhost:11434", modelName := "llama2" }

/-- A streamed line carrying an `eval_count` but no `prompt_eval_count`
    (and a zero elapsed clock): the `Math.max(0, undefined)` path. -/
def chunkNoPrompt : StreamChunk :=
  { response := "hi", done := false, eval_count := some 8, now_ms := 0 }

/-- A fully populated terminal stream line. -/
def chunkComplete : StreamChunk :=
  { response := "done", done := true, eval_count := some 8
    eval_duration := some 1000000000, prompt_eval_count := some 20
    prompt_eval_duration := some 500000000, total_duration := some 2000000000
    now_ms := 100 }

/-- A terminal line with text but no statistics fields at all. -/
def chunkTextOnly : StreamChunk :=
  { response := "12345678", done := true, now_ms := 100 }

/-- Raw stats of the documented inversion case `{promptEvalCount: 5, evalCount: 8}`. -/
def statsInverted : OllamaStats :=
  { prompt_eval_count := some 5, eval_count := some 8 }

/-- Raw stats of the normal case `{promptEvalCount: 20, evalCount: 8}`. -/
def statsNormal : OllamaStats :=
  { prompt_eval_count := some 20, eval_count := some 8 }

/-- A successful run's metrics, as a comparison outcome. -/
def exampleMetrics : ModelMetrics :=
  { responseTime := JsNum.num 1200, tokensPerSecond := JsNum.num 40
    totalTokens := JsNum.num 20, promptTokens := JsNum.num 12
    completionTokens := JsNum.num 8, processingTime := JsNum.num 2 }

/-- The comparison outcome of the partial-failure scenario: the first model
    succeeds, the second hits an HTTP 500. -/
def partialFailureOutcome (c : OllamaEndpointConfig) : Except String ModelMetrics :=
  if c.id = "ollama-2" then Except.error "Ollama API error: 500 Internal Server Error"
  else Except.ok exampleMetrics

/-- An API outcome used where no API models are configured. -/
def noApiOutcome (_c : ApiConfig) : Except String ModelMetrics :=
  Except.error "unreachable"

/-- Chart buffer point: model A at t = 0. -/
def pointA0 : PerfPoint := ⟨0, [("A", 5)]⟩

/-- Chart buffer point: model B at t = 50. -/
def pointB1 : PerfPoint := ⟨50, [("B", 3)]⟩

/-- Chart buffer point: model A at t = 100. -/
def pointA2 : PerfPoint := ⟨100, [("A", 7)]⟩

/-- A normalised point for the interpolation witness: value 0 at t = 0. -/
def normStart : NormPoint := ⟨0, [("A", some 0)]⟩

/-- A normalised point 200ms later with value 10: a gap worth interpolating. -/
def normFar : NormPoint := ⟨200, [("A", some 10)]⟩

/-- A normalised point only 80ms later: a gap below the `2×timeStep`
    threshold. -/
def normNear : NormPoint := ⟨80, [("A", some 10)]⟩

/-- The service state of the partial-failure scenario: two enabled Ollama
    models stored. -/
def partialFailureState : ComparisonServiceState :=
  updateConfigs ComparisonServiceState.new
    { ollama := [exampleConfig, exampleConfigB], api := [] }

/-!
# Theorems

General-purpose lemmas come first, then one theorem per claim (with its
witness or counterexample where applicable).
-/

/-- After one `acceptedFrom last`, consecutive accepted report times are more
    than 50ms apart, and the first exceeds `last` by more than 50ms. -/
theorem acceptedFrom_chain (last : ℚ) (ts : List ℚ) :
    List.Chain' (fun a b => 50 < b - a) (last :: acceptedFrom last ts) := by
  induction ts generalizing last with
  | nil => simp [acceptedFrom]
  | cons t ts ih =>
    simp only [acceptedFrom]
    by_cases h : 50 < t - last
    · rw [if_pos h]
      exact List.chain'_cons.mpr ⟨h, ih t⟩
    · rw [if_neg h]
      exact ih last

/-- C4 (amended): in the dashboard's progress gate every report — the very
    first and the final 100% report included — is subject to the same 50ms
    throttle: a report is accepted exactly when strictly more than 50ms have
    passed since the previously accepted one (baseline 0), so consecutive
    accepted reports are always more than 50ms apart and the first accepted
    report itself lies more than 50ms after the time origin.  There is no
    unconditional emission of the first or final report through this gate. -/
theorem c4_throttle_spacing (ts : List ℚ) :
    List.Chain' (fun a b => 50 < b - a) ((0 : ℚ) :: acceptedUpdates ts) :=
  acceptedFrom_chain 0 ts

/-- C4 counterexample: with the initial report at 100ms and the final 100%
    report at 130ms, the gate drops the final report (the claim says it is
    always emitted unconditionally); likewise a first report at 30ms is
    dropped (more than 50ms must have passed since the 0 baseline). -/
theorem c4_counterexample :
    acceptedUpdates [100, 130] = [100] ∧
    (130 : ℚ) ∉ acceptedUpdates [100, 130] ∧
    acceptedUpdates [30] = [] := by
  have h1 : acceptedUpdates [100, 130] = [100] := by
    norm_num [acceptedUpdates, acceptedFrom]
  refine ⟨h1, ?_, by norm_num [acceptedUpdates, acceptedFrom]⟩
  rw [h1]
  norm_num

/-- Progress-event appends never evict: `n` of them grow the buffer by
    exactly `n`. -/
theorem progress_appends_grow (h : List PerfPoint) (n : Nat) (p : PerfPoint) :
    (applyEvents h (List.replicate n (AggEvent.progress p))).length = h.length + n := by
  induction n generalizing h with
  | zero => simp [applyEvents]
  | succ n ih =>
    have hstep :
        applyEvents h (List.replicate (n + 1) (AggEvent.progress p))
          = applyEvents (progressAppend h p) (List.replicate n (AggEvent.progress p)) := rfl
    rw [hstep, ih (progressAppend h p)]
    simp [progressAppend]
    omega

/-- C5 counterexample: appending 150 points through the progress-event path
    leaves all 150 in the buffer — the claim's bound of 100 does not hold at
    every instant, because only the tick path evicts. -/
theorem c5_counterexample :
    (applyEvents [] (List.replicate 150 (AggEvent.progress ⟨0, []⟩))).length = 150 := by
  simpa using progress_appends_grow [] 150 ⟨0, []⟩

/-- The tick append always equals keeping the most recent `maxPoints`
    elements of the appended list. -/
theorem tickAppend_eq_drop (h : List PerfPoint) (p : PerfPoint) :
    tickAppend h p = (h ++ [p]).drop ((h ++ [p]).length - maxPoints) := by
  unfold tickAppend
  by_cases hl : (h ++ [p]).length > maxPoints
  · rw [if_pos hl]
  · rw [if_neg hl, Nat.sub_eq_zero_of_le (by omega), List.drop_zero]

/-- A tick append never leaves more than `maxPoints` points. -/
theorem length_tickAppend_le (h : List PerfPoint) (p : PerfPoint) :
    (tickAppend h p).length ≤ maxPoints := by
  unfold tickAppend
  by_cases hl : (h ++ [p]).length > maxPoints
  · rw [if_pos hl]
    simp only [List.length_drop]
    omega
  · rw [if_neg hl]
    omega

/-- A pure sequence of tick appends keeps exactly the most recent
    `maxPoints` points, in order. -/
theorem tick_fold (ps : List PerfPoint) :
    applyEvents [] (ps.map AggEvent.tick) = ps.drop (ps.length - maxPoints) := by
  induction ps using List.reverseRecOn with
  | nil => simp [applyEvents]
  | append_singleton qs p ih =>
    have hfold :
        applyEvents [] ((qs ++ [p]).map AggEvent.tick)
          = tickAppend (applyEvents [] (qs.map AggEvent.tick)) p := by
      simp [applyEvents, List.foldl_append, applyEvent]
    rw [hfold, ih, tickAppend_eq_drop]
    rcases le_or_lt qs.length maxPoints with hle | hgt
    · rw [Nat.sub_eq_zero_of_le hle, List.drop_zero]
    · have hm : maxPoints = 100 := rfl
      have hidx : (qs.drop (qs.length - maxPoints) ++ [p]).length - maxPoints = 1 := by
        simp only [List.length_append, List.length_drop, List.length_singleton]
        omega
      have h2 : (qs ++ [p]).length - maxPoints = (qs.length - maxPoints) + 1 := by
        simp only [List.length_append, List.length_singleton]
        omega
      have h3 : (qs ++ [p]).drop ((qs.length - maxPoints) + 1)
          = qs.drop ((qs.length - maxPoints) + 1) ++ [p] :=
        List.drop_append_of_le_length (by omega)
      have h4 : (qs.drop (qs.length - maxPoints) ++ [p]).drop 1
          = (qs.drop (qs.length - maxPoints)).drop 1 ++ [p] :=
        List.drop_append_of_le_length (by simp only [List.length_drop]; omega)
      rw [hidx, h2, h3, h4, List.drop_drop]

/-- C5 (amended): the tick-path append evicts the oldest points beyond
    `maxPoints = 100` — a sequence of tick appends leaves exactly the 100
    most recent points in chronological order, and a tick append never leaves
    more than 100 points — while the progress-event append is a plain append
    that never evicts, so the buffer can exceed 100 points between ticks. -/
theorem c5_tick_eviction (ps : List PerfPoint) (h : List PerfPoint) (p : PerfPoint) :
    applyEvents [] (ps.map AggEvent.tick) = ps.drop (ps.length - maxPoints) ∧
    (tickAppend h p).length ≤ maxPoints ∧
    progressAppend h p = h ++ [p] :=
  ⟨tick_fold ps, length_tickAppend_le h p, rfl⟩

/-- C7: `compareModels` reads `getActiveConfigs()`, which returns the stored
    configs without filtering on `enabled`; a single stored configuration
    with `enabled = false` is therefore launched and contributes a response
    entry, even though `updateConfigs` instantiated no service for it. -/
theorem c7_disabled_config_launched :
    (updateConfigs ComparisonServiceState.new
        { ollama := [disabledConfig], api := [] }).services.ollama = [] ∧
    (compareModels
        (updateConfigs ComparisonServiceState.new { ollama := [disabledConfig], api := [] })
        "hi" (fun _ => Except.error "connection refused") noApiOutcome "t0" 0).responses.length
      = 1 ∧
    ((compareModels
        (updateConfigs ComparisonServiceState.new { ollama := [disabledConfig], api := [] })
        "hi" (fun _ => Except.error "connection refused") noApiOutcome "t0" 0).responses.map
      (fun r => r.id)) = ["ollama-3"] := by
  decide

/-- An absent field reads as NaN. -/
theorem optToJs_none : optToJs none = JsNum.nan := rfl

/-- A present count reads as its numeric value. -/
theorem optToJs_some (n : ℕ) : optToJs (some n) = JsNum.num n := rfl

/-- Truthiness of an optional count: present and nonzero. -/
theorem toBool_optToJs (o : Option Nat) :
    (optToJs o).toBool = true ↔ ∃ n, o = some n ∧ n ≠ 0 := by
  cases o with
  | none => simp [optToJs, JsNum.toBool]
  | some n =>
    by_cases h : n = 0 <;> simp [optToJs, JsNum.toBool, h]

/-- NaN absorbs addition on the left. -/
theorem jsAdd_nan_left (x : JsNum) : JsNum.add JsNum.nan x = JsNum.nan := by
  cases x <;> rfl

/-- NaN absorbs addition on the right. -/
theorem jsAdd_nan_right (x : JsNum) : JsNum.add x JsNum.nan = JsNum.nan := by
  cases x <;> rfl

/-- IEEE subtraction of two plain numbers. -/
theorem jsSub_num (a b : ℚ) : JsNum.sub (JsNum.num a) (JsNum.num b) = JsNum.num (a - b) := by
  simp [JsNum.sub, JsNum.neg, JsNum.add, sub_eq_add_neg]

/-- `>=` of two plain numbers. -/
theorem jsGe_num_iff (a b : ℚ) : JsNum.ge (JsNum.num a) (JsNum.num b) = true ↔ b ≤ a := by
  simp [JsNum.ge]

/-- Division of plain numbers with a nonzero divisor. -/
theorem jsDiv_num_of_ne (a b : ℚ) (hb : b ≠ 0) :
    JsNum.div (JsNum.num a) (JsNum.num b) = JsNum.num (a / b) := by
  simp [JsNum.div, hb]

/-- Shape of an optional-count read: NaN when absent, a nonnegative number
    when present. -/
theorem optToJs_shape (o : Option Nat) :
    optToJs o = JsNum.nan ∨ ∃ a : ℚ, 0 ≤ a ∧ optToJs o = JsNum.num a := by
  cases o with
  | none => exact Or.inl rfl
  | some n => exact Or.inr ⟨n, by positivity, rfl⟩

/-- Adding two optional counts: NaN when either is absent, else their sum. -/
theorem add_opt_shape (o1 o2 : Option Nat) :
    JsNum.add (optToJs o1) (optToJs o2) = JsNum.nan ∨
      ∃ a : ℚ, 0 ≤ a ∧ JsNum.add (optToJs o1) (optToJs o2) = JsNum.num a := by
  cases o1 with
  | none => exact Or.inl (jsAdd_nan_left _)
  | some m =>
    cases o2 with
    | none => exact Or.inl (jsAdd_nan_right _)
    | some n => exact Or.inr ⟨(m : ℚ) + n, by positivity, rfl⟩

/-- Dividing a NaN-or-nonnegative value by `1e9` keeps that shape. -/
theorem div_1e9_shape (x : JsNum)
    (hx : x = JsNum.nan ∨ ∃ a : ℚ, 0 ≤ a ∧ x = JsNum.num a) :
    JsNum.div x (JsNum.num 1000000000) = JsNum.nan ∨
      ∃ a : ℚ, 0 ≤ a ∧ JsNum.div x (JsNum.num 1000000000) = JsNum.num a := by
  rcases hx with rfl | ⟨a, ha, rfl⟩
  · exact Or.inl rfl
  · right
    refine ⟨a / 1000000000, by positivity, ?_⟩
    exact jsDiv_num_of_ne a 1000000000 (by norm_num)

/-- `x || q` for a NaN-or-nonnegative `x` and a nonnegative number `q` is a
    nonnegative number. -/
theorem orElse_num_nonneg (x : JsNum) (q : ℚ) (hq : 0 ≤ q)
    (hx : x = JsNum.nan ∨ ∃ a : ℚ, 0 ≤ a ∧ x = JsNum.num a) :
    ∃ b : ℚ, 0 ≤ b ∧ JsNum.orElse x (JsNum.num q) = JsNum.num b := by
  rcases hx with rfl | ⟨a, ha, rfl⟩
  · exact ⟨q, hq, by simp [JsNum.orElse, JsNum.toBool]⟩
  · by_cases h : a = 0
    · exact ⟨q, hq, by simp [JsNum.orElse, JsNum.toBool, h]⟩
    · exact ⟨a, ha, by simp [JsNum.orElse, JsNum.toBool, h]⟩

/-- `x || q` for a NaN-or-nonnegative `x` and a positive number `q` is a
    positive number. -/
theorem orElse_num_pos (x : JsNum) (q : ℚ) (hq : 0 < q)
    (hx : x = JsNum.nan ∨ ∃ a : ℚ, 0 ≤ a ∧ x = JsNum.num a) :
    ∃ b : ℚ, 0 < b ∧ JsNum.orElse x (JsNum.num q) = JsNum.num b := by
  rcases hx with rfl | ⟨a, ha, rfl⟩
  · exact ⟨q, hq, by simp [JsNum.orElse, JsNum.toBool]⟩
  · by_cases h : a = 0
    · exact ⟨q, hq, by simp [JsNum.orElse, JsNum.toBool, h]⟩
    · exact ⟨a, lt_of_le_of_ne ha (Ne.symm h), by simp [JsNum.orElse, JsNum.toBool, h]⟩

/-- The per-chunk throughput `e / (evalDuration/1e9 || elapsed)` is finite
    and nonnegative as long as the elapsed time is positive. -/
theorem tps_chunk_ok (e : ℚ) (_he : 0 ≤ e) (ed : Option Nat) (tss : ℚ) (hts : 0 < tss) :
    ∃ b : ℚ, 0 < b ∧
      JsNum.div (JsNum.num e)
          (JsNum.orElse (JsNum.div (optToJs ed) (JsNum.num 1000000000)) (JsNum.num tss))
        = JsNum.num (e / b) := by
  obtain ⟨b, hb, hOr⟩ :=
    orElse_num_pos _ tss hts (div_1e9_shape (optToJs ed) (optToJs_shape ed))
  exact ⟨b, hb, by rw [hOr, jsDiv_num_of_ne e b (ne_of_gt hb)]⟩

/-- The division-then-`isFinite`-clamp of the final metrics always yields a
    finite, nonnegative throughput when numerator and denominator are
    nonnegative numbers. -/
theorem clampDiv_ok (c d : ℚ) (hc : 0 ≤ c) (hd : 0 ≤ d) :
    (if (JsNum.div (JsNum.num c) (JsNum.num d)).isFinite then
        JsNum.div (JsNum.num c) (JsNum.num d) else JsNum.num 0).isFinite = true ∧
    JsNum.ge
      (if (JsNum.div (JsNum.num c) (JsNum.num d)).isFinite then
        JsNum.div (JsNum.num c) (JsNum.num d) else JsNum.num 0) (JsNum.num 0) = true := by
  by_cases hd0 : d = 0
  · subst hd0
    rcases eq_or_lt_of_le hc with rfl | hcpos
    · simp [JsNum.div, JsNum.isFinite, JsNum.ge]
    · simp [JsNum.div, JsNum.isFinite, JsNum.ge, ne_of_gt hcpos, not_lt.mpr hc, hcpos]
  · rw [jsDiv_num_of_ne c d hd0]
    have : 0 ≤ c / d := div_nonneg hc hd
    simp [JsNum.isFinite, JsNum.ge, this]

/-- One loop iteration of the stream consumer preserves the token invariant,
    and any report it emits satisfies the full `Metrics` invariant —
    provided the chunk carries a `prompt_eval_count` whenever it carries a
    counted `eval_count`, and the wall clock has advanced. -/
theorem promptFix_shape (p e : ℕ) :
    ∃ pv : ℚ, 0 ≤ pv ∧
      promptFix (some p) (some e) = (JsNum.num pv, JsNum.num (pv + (e : ℚ))) := by
  unfold promptFix
  by_cases hc : (e : ℚ) ≤ (p : ℚ)
  · have hgeb : JsNum.ge (optToJs (some p)) (optToJs (some e)) = true := by
      rw [optToJs_some, optToJs_some]
      exact (jsGe_num_iff _ _).mpr hc
    rw [if_pos hgeb, optToJs_some, optToJs_some, jsSub_num]
    refine ⟨(p : ℚ) - (e : ℚ), sub_nonneg.mpr hc, ?_⟩
    have hmax : max 0 ((p : ℚ) - (e : ℚ)) = (p : ℚ) - (e : ℚ) :=
      max_eq_right (sub_nonneg.mpr hc)
    simp [JsNum.max0, hmax, sub_add_cancel]
  · have hgeb : JsNum.ge (optToJs (some p)) (optToJs (some e)) = false := by
      rw [optToJs_some, optToJs_some]
      simp [JsNum.ge, hc]
    rw [if_neg (by simp [hgeb]), optToJs_some, optToJs_some]
    refine ⟨(p : ℚ), by positivity, ?_⟩
    have hmax : max 0 (p : ℚ) = (p : ℚ) := max_eq_right (by positivity)
    simp [JsNum.max0, hmax, JsNum.add]

theorem chunkStep_invariant (config : OllamaEndpointConfig) (st : GenState) (c : StreamChunk)
    (hst : stateTokensOk st)
    (hpec : c.eval_count.getD 0 ≠ 0 → c.prompt_eval_count.isSome = true)
    (hnow : 0 < c.now_ms) :
    stateTokensOk (chunkStep config st c).1 ∧
    ∀ pm ∈ (chunkStep config st c).2, metricsOk pm.2 := by
  obtain ⟨⟨cq, hcq0, hcq⟩, ⟨pq, hpq0, hpq⟩⟩ := hst
  by_cases hev : (optToJs c.eval_count).toBool = true
  · obtain ⟨e, hce, hne⟩ := (toBool_optToJs c.eval_count).mp hev
    have hpec' : c.prompt_eval_count.isSome = true := hpec (by rw [hce]; simpa using hne)
    obtain ⟨p, hcp⟩ := Option.isSome_iff_exists.mp hpec'
    have hevs : (JsNum.num (e : ℚ)).toBool = true := by
      simp [JsNum.toBool, Nat.cast_eq_zero, hne]
    have htss : 0 < c.now_ms / 1000 := by positivity
    obtain ⟨b, hb, htps⟩ :=
      tps_chunk_ok (e : ℚ) (by positivity) c.eval_duration (c.now_ms / 1000) htss
    have hdivpos : (0 : ℚ) ≤ (e : ℚ) / b := div_nonneg (by positivity) hb.le
    obtain ⟨pv, hpv0, hPF⟩ := promptFix_shape p e
    constructor
    · refine ⟨⟨(e : ℚ), by positivity, ?_⟩, ⟨pv, hpv0, ?_⟩⟩ <;>
        cases hd : c.done <;>
          simp [chunkStep, hce, hcp, hevs, hd, hPF, optToJs_some]
    · intro pm hpm
      have hpm' : pm = ((min ((e : ℚ) / (optOrDefault config.maxTokens 128 : ℚ)) 0.99),
          { responseTime := JsNum.num (c.now_ms / 1000 * 1000)
            tokensPerSecond :=
              JsNum.div (JsNum.num (e : ℚ))
                (JsNum.orElse (JsNum.div (optToJs c.eval_duration) (JsNum.num 1000000000))
                  (JsNum.num (c.now_ms / 1000)))
            totalTokens := JsNum.num (pv + (e : ℚ))
            promptTokens := JsNum.num pv
            completionTokens := JsNum.num (e : ℚ)
            processingTime :=
              JsNum.div (optToJs c.total_duration) (JsNum.num 1000000000) }) := by
        cases hd : c.done <;>
          · rw [chunkStep] at hpm
            simp only [hce, hcp, hevs, hd, hPF, optToJs_some, if_true, Bool.false_eq_true,
              if_false, Option.mem_def, Option.some.injEq, Option.getD_some] at hpm
            exact hpm.symm
      rw [hpm']
      refine ⟨?_, ?_, ?_, ?_, ?_⟩
      · exact (jsGe_num_iff _ _).mpr hpv0
      · exact (jsGe_num_iff _ _).mpr (by positivity)
      · simp [JsNum.add]
      · rw [htps]
        rfl
      · rw [htps]
        exact (jsGe_num_iff _ _).mpr hdivpos
  · constructor
    · refine ⟨⟨cq, hcq0, ?_⟩, ⟨pq, hpq0, ?_⟩⟩ <;>
        cases hd : c.done <;> simp [chunkStep, hev, hd, hcq, hpq]
    · intro pm hpm
      cases hd : c.done <;> simp [chunkStep, hev, hd] at hpm

/-- The whole stream loop preserves the token invariant and every emitted
    report satisfies the `Metrics` invariant. -/
theorem runChunks_invariant (config : OllamaEndpointConfig) (chunks : List StreamChunk)
    (st : GenState) (hst : stateTokensOk st)
    (hpec : ∀ c ∈ chunks, c.eval_count.getD 0 ≠ 0 → c.prompt_eval_count.isSome = true)
    (hnow : ∀ c ∈ chunks, 0 < c.now_ms) :
    stateTokensOk (runChunks config st chunks).1 ∧
    ∀ pm ∈ (runChunks config st chunks).2, metricsOk pm.2 := by
  induction chunks generalizing st with
  | nil => exact ⟨hst, by simp [runChunks]⟩
  | cons c cs ih =>
    have hstep := chunkStep_invariant config st c hst (hpec c (by simp)) (hnow c (by simp))
    have ihr := ih (chunkStep config st c).1 hstep.1
      (fun x hx => hpec x (by simp [hx])) (fun x hx => hnow x (by simp [hx]))
    constructor
    · exact ihr.1
    · intro pm hpm
      simp only [runChunks] at hpm
      rcases h2 : (chunkStep config st c).2 with _ | pm0
      · rw [h2] at hpm
        exact ihr.2 pm hpm
      · rw [h2] at hpm
        rcases List.mem_cons.mp hpm with rfl | hpm'
        · exact hstep.2 pm (by rw [h2]; rfl)
        · exact ihr.2 pm hpm'

/-- The final metrics satisfy the `Metrics` invariant whenever the token
    locals satisfy the loop invariant and the total elapsed time is
    nonnegative. -/
theorem finalMetrics_invariant (config : OllamaEndpointConfig) (st : GenState) (endMs : ℚ)
    (hst : stateTokensOk st) (hend : 0 ≤ endMs) :
    metricsOk (finalMetrics config st endMs) := by
  obtain ⟨⟨cq, hcq0, hcq⟩, ⟨pq, hpq0, hpq⟩⟩ := hst
  obtain ⟨b, hb0, hB⟩ := orElse_num_nonneg _ (endMs / 1000) (by positivity)
    (div_1e9_shape _ (add_opt_shape st.lastStats.prompt_eval_duration
      st.lastStats.eval_duration))
  obtain ⟨d, hd0, hD⟩ := orElse_num_nonneg _ b hb0
    (div_1e9_shape _ (optToJs_shape st.lastStats.eval_duration))
  have hlt : JsNum.lt (JsNum.num pq) (JsNum.num 0) = false := by
    simp [JsNum.lt, not_lt.mpr hpq0]
  have hclamp := clampDiv_ok cq d hcq0 hd0
  refine ⟨?_, ?_, ?_, ?_, ?_⟩ <;>
    simp only [finalMetrics, hcq, hpq, hB, hD, hlt, Bool.false_eq_true, if_false]
  all_goals
    first
      | exact hclamp.1
      | exact hclamp.2
      | rfl
      | simp [JsNum.ge, hpq0, hcq0]

/-- C1 (amended): provided every streamed record that carries a counted
    `eval_count` also carries a `prompt_eval_count`, and the wall clock is
    positive at each record and nonnegative at stream end, every metrics
    record produced by `generateCompletion` — the initial report, each
    intermediate report passed to `onProgress`, and the final returned
    record — has nonnegative `promptTokens` and `completionTokens`,
    `totalTokens = promptTokens + completionTokens`, and a finite
    nonnegative `tokensPerSecond`.  (Without the `prompt_eval_count`
    proviso the invariant fails: `Math.max(0, undefined)` is NaN — see the
    counterexample.) -/
theorem c1_metrics_invariant (config : OllamaEndpointConfig) (chunks : List StreamChunk)
    (endMs : ℚ)
    (hpec : ∀ c ∈ chunks, c.eval_count.getD 0 ≠ 0 → c.prompt_eval_count.isSome = true)
    (hnow : ∀ c ∈ chunks, 0 < c.now_ms)
    (hend : 0 ≤ endMs) :
    (∀ r ∈ (generateCompletion config chunks endMs).1, metricsOk r.2) ∧
    metricsOk (generateCompletion config chunks endMs).2 := by
  have hinit : stateTokensOk ({} : GenState) :=
    ⟨⟨0, le_refl 0, rfl⟩, ⟨0, le_refl 0, rfl⟩⟩
  have hrun := runChunks_invariant config chunks {} hinit hpec hnow
  have hfin := finalMetrics_invariant config (runChunks config {} chunks).1 endMs hrun.1 hend
  have hzero : metricsOk zeroMetrics := by
    refine ⟨?_, ?_, ?_, ?_, ?_⟩ <;> simp [zeroMetrics, JsNum.ge, JsNum.add, JsNum.isFinite]
  constructor
  · intro r hr
    simp only [generateCompletion] at hr
    rcases List.mem_cons.mp hr with h | hr2
    · rw [h]
      exact hzero
    rcases List.mem_append.mp hr2 with h | h
    · exact hrun.2 r h
    · rw [List.mem_singleton.mp h]
      exact hfin
  · exact hfin

/-- C1 counterexample: a single streamed record with `eval_count: 8` but no
    `prompt_eval_count`, processed at elapsed time 0, produces an
    intermediate report violating the invariant (its `promptTokens` is NaN
    and its `tokensPerSecond` is Infinity), and the final returned record
    violates it too (`promptTokens` stays NaN through the `< 0` clamp). -/
theorem c1_counterexample :
    (generateCompletion exampleConfig [chunkNoPrompt] 200).2.promptTokens = JsNum.nan ∧
    ¬ metricsOk (generateCompletion exampleConfig [chunkNoPrompt] 200).2 ∧
    ∃ r ∈ (generateCompletion exampleConfig [chunkNoPrompt] 200).1, ¬ metricsOk r.2 := by
  have hpt : (generateCompletion exampleConfig [chunkNoPrompt] 200).2.promptTokens
      = JsNum.nan := by
    norm_num [generateCompletion, runChunks, chunkStep, promptFix, finalMetrics,
      chunkNoPrompt, exampleConfig, optToJs, JsNum.toBool, JsNum.ge, JsNum.max0,
      JsNum.add, JsNum.sub, JsNum.neg, JsNum.lt]
  have hnot : ¬ metricsOk (generateCompletion exampleConfig [chunkNoPrompt] 200).2 := by
    intro h
    have h1 := h.1
    rw [hpt] at h1
    simp [JsNum.ge] at h1
  refine ⟨hpt, hnot,
    ⟨(1, (generateCompletion exampleConfig [chunkNoPrompt] 200).2), ?_, hnot⟩⟩
  simp [generateCompletion]

/-- C1 witness: a fully populated terminal record at positive elapsed time
    satisfies the invariant for every report. -/
theorem c1_witness :
    (∀ r ∈ (generateCompletion exampleConfig [chunkComplete] 200).1, metricsOk r.2) ∧
    metricsOk (generateCompletion exampleConfig [chunkComplete] 200).2 :=
  c1_metrics_invariant exampleConfig [chunkComplete] 200
    (by intro c hc; simp at hc; subst hc; intro _; rfl)
    (by intro c hc; simp at hc; subst hc; norm_num [chunkComplete])
    (by norm_num)

/-- C2: for a raw statistics record carrying both `promptEvalCount` and
    `evalCount`, the corrector sets `completionTokens = evalCount` and applies
    the prompt-token correction: when `promptEvalCount ≥ completionTokens`,
    `promptTokens = max(0, promptEvalCount - completionTokens)` and
    `totalTokens = promptEvalCount`; otherwise
    `promptTokens = max(0, promptEvalCount)` and
    `totalTokens = promptTokens + completionTokens`. -/
theorem c2_prompt_token_correction (config : OllamaEndpointConfig) (stats : OllamaStats)
    (responseTime : ℚ) (text : String) (p e : Nat)
    (hp : stats.prompt_eval_count = some p) (he : stats.eval_count = some e) :
    (calculateMetrics config stats responseTime text).completionTokens = JsNum.num e ∧
    (if (e : ℚ) ≤ (p : ℚ) then
        (calculateMetrics config stats responseTime text).promptTokens
            = JsNum.num (max 0 ((p : ℚ) - (e : ℚ))) ∧
          (calculateMetrics config stats responseTime text).totalTokens = JsNum.num p
      else
        (calculateMetrics config stats responseTime text).promptTokens
            = JsNum.num (max 0 (p : ℚ)) ∧
          (calculateMetrics config stats responseTime text).totalTokens
            = JsNum.num (max 0 (p : ℚ) + (e : ℚ))) := by
  have hmax1 : ¬ (max 0 ((p : ℚ) - (e : ℚ)) < 0) := not_lt.mpr (le_max_left _ _)
  have hmax2 : ¬ (max 0 (p : ℚ) < 0) := not_lt.mpr (le_max_left _ _)
  by_cases hc : (e : ℚ) ≤ (p : ℚ)
  · have hcn : e ≤ p := by exact_mod_cast hc
    rw [if_pos hc]
    refine ⟨?_, ?_, ?_⟩ <;>
      simp [calculateMetrics, hp, he, hcn, hmax1]
  · have hcn : ¬ e ≤ p := by exact_mod_cast hc
    rw [if_neg hc]
    refine ⟨?_, ?_, ?_⟩ <;>
      simp [calculateMetrics, hp, he, hcn, hmax2]

/-- C2 witness: the two documented cases.  Raw `{promptEvalCount: 5,
    evalCount: 8}` corrects to prompt 5, completion 8, total 13; raw
    `{promptEvalCount: 20, evalCount: 8}` corrects to prompt 12, total 20. -/
theorem c2_witness :
    ((calculateMetrics exampleConfig statsInverted 1000 "").promptTokens = JsNum.num 5 ∧
     (calculateMetrics exampleConfig statsInverted 1000 "").completionTokens = JsNum.num 8 ∧
     (calculateMetrics exampleConfig statsInverted 1000 "").totalTokens = JsNum.num 13) ∧
    ((calculateMetrics exampleConfig statsNormal 1000 "").promptTokens = JsNum.num 12 ∧
     (calculateMetrics exampleConfig statsNormal 1000 "").completionTokens = JsNum.num 8 ∧
     (calculateMetrics exampleConfig statsNormal 1000 "").totalTokens = JsNum.num 20) := by
  have h1 := c2_prompt_token_correction exampleConfig statsInverted 1000 "" 5 8 rfl rfl
  have h2 := c2_prompt_token_correction exampleConfig statsNormal 1000 "" 20 8 rfl rfl
  rw [if_neg (by norm_num : ¬ (((8 : ℕ) : ℚ) ≤ ((5 : ℕ) : ℚ)))] at h1
  rw [if_pos (by norm_num : (((8 : ℕ) : ℚ) ≤ ((20 : ℕ) : ℚ)))] at h2
  exact ⟨⟨h1.2.1.trans (by norm_num), h1.1.trans (by norm_num), h1.2.2.trans (by norm_num)⟩,
    h2.2.1.trans (by norm_num), h2.1.trans (by norm_num), h2.2.2.trans (by norm_num)⟩

/-- When no streamed line carries a (truthy) `eval_count`, the token locals of
    `generateCompletion` never move off their zero initialisation. -/
theorem runChunks_no_eval (config : OllamaEndpointConfig) (chunks : List StreamChunk)
    (st : GenState) (h : ∀ c ∈ chunks, c.eval_count = none) :
    (runChunks config st chunks).1.completionTokens = st.completionTokens ∧
    (runChunks config st chunks).1.promptTokens = st.promptTokens := by
  induction chunks generalizing st with
  | nil => exact ⟨rfl, rfl⟩
  | cons c cs ih =>
    have hc : c.eval_count = none := h c (by simp)
    have hrest : ∀ x ∈ cs, x.eval_count = none := fun x hx => h x (by simp [hx])
    have hstep : (chunkStep config st c).1.completionTokens = st.completionTokens ∧
        (chunkStep config st c).1.promptTokens = st.promptTokens := by
      cases hd : c.done <;> simp [chunkStep, hc, optToJs, JsNum.toBool, hd]
    have := ih (chunkStep config st c).1 hrest
    exact ⟨hstep.1 ▸ this.1, hstep.2 ▸ this.2⟩

/-- With both token locals still zero, the final metrics report zero tokens
    across the board. -/
theorem finalMetrics_zero_tokens (config : OllamaEndpointConfig) (st : GenState) (endMs : ℚ)
    (hc : st.completionTokens = JsNum.num 0) (hp : st.promptTokens = JsNum.num 0) :
    (finalMetrics config st endMs).completionTokens = JsNum.num 0 ∧
    (finalMetrics config st endMs).promptTokens = JsNum.num 0 ∧
    (finalMetrics config st endMs).totalTokens = JsNum.num 0 := by
  refine ⟨by simp [finalMetrics, hc], ?_, ?_⟩ <;>
    simp [finalMetrics, hc, hp, JsNum.lt, JsNum.add]

/-- C6 (amended): the stream consumer applies no character-count estimation —
    when `raw.evalCount` is absent from every streamed record the final
    metrics report `completionTokens = 0`, `promptTokens = 0` and
    `totalTokens = 0` regardless of the generated text and the prompt.  The
    `ceil(len/4)` fallback exists only in `calculateMetrics` (which
    `generateCompletion` never invokes), and there the prompt-token fallback
    is computed from the passed text (the response), not from the prompt. -/
theorem c6_no_estimation (config : OllamaEndpointConfig) (chunks : List StreamChunk)
    (endMs : ℚ) (stats : OllamaStats) (responseTime : ℚ) (text : String)
    (hchunks : ∀ c ∈ chunks, c.eval_count = none)
    (hec : stats.eval_count = none) (hpec : stats.prompt_eval_count = none) :
    ((generateCompletion config chunks endMs).2.completionTokens = JsNum.num 0 ∧
     (generateCompletion config chunks endMs).2.promptTokens = JsNum.num 0 ∧
     (generateCompletion config chunks endMs).2.totalTokens = JsNum.num 0) ∧
    ((calculateMetrics config stats responseTime text).completionTokens
        = JsNum.num (estimateTokenCount text) ∧
     (calculateMetrics config stats responseTime text).promptTokens
        = JsNum.num (estimateTokenCount text) ∧
     (calculateMetrics config stats responseTime text).totalTokens
        = JsNum.num ((estimateTokenCount text : ℚ) + (estimateTokenCount text : ℚ))) := by
  constructor
  · have hrun := runChunks_no_eval config chunks {} hchunks
    exact finalMetrics_zero_tokens config _ endMs hrun.1 hrun.2
  · have hnn : ¬ ((estimateTokenCount text : ℚ) < 0) := not_lt.mpr (by positivity)
    refine ⟨?_, ?_, ?_⟩ <;> simp [calculateMetrics, hec, hpec, hnn]

/-- C6 counterexample: a stream whose only line carries the text
    `"12345678"` and no statistics fields yields final `completionTokens = 0`,
    not the claimed estimate `ceil(8/4) = 2`. -/
theorem c6_counterexample :
    (generateCompletion exampleConfig [chunkTextOnly] 200).2.completionTokens = JsNum.num 0 ∧
    estimateTokenCount "12345678" = 2 ∧
    (generateCompletion exampleConfig [chunkTextOnly] 200).2.completionTokens
      ≠ JsNum.num (estimateTokenCount "12345678") := by
  have hz : (generateCompletion exampleConfig [chunkTextOnly] 200).2.completionTokens
      = JsNum.num 0 := by
    have hrun := runChunks_no_eval exampleConfig [chunkTextOnly] {}
      (by intro c hc; simp at hc; rw [hc]; rfl)
    exact (finalMetrics_zero_tokens exampleConfig _ 200 hrun.1 hrun.2).1
  have hest : estimateTokenCount "12345678" = 2 := by decide
  refine ⟨hz, hest, ?_⟩
  rw [hz, hest]
  simp

/-- C6 witness: the amended statement at a concrete generation (text-only
    stream) and a concrete statistics record with both counts absent. -/
theorem c6_witness :
    (((generateCompletion exampleConfigB [chunkTextOnly] 200).2.completionTokens
        = JsNum.num 0 ∧
      (generateCompletion exampleConfigB [chunkTextOnly] 200).2.promptTokens = JsNum.num 0 ∧
      (generateCompletion exampleConfigB [chunkTextOnly] 200).2.totalTokens = JsNum.num 0) ∧
     ((calculateMetrics exampleConfigB {} 100 "12345678").completionTokens
        = JsNum.num (estimateTokenCount "12345678") ∧
      (calculateMetrics exampleConfigB {} 100 "12345678").promptTokens
        = JsNum.num (estimateTokenCount "12345678") ∧
      (calculateMetrics exampleConfigB {} 100 "12345678").totalTokens
        = JsNum.num ((estimateTokenCount "12345678" : ℚ)
            + (estimateTokenCount "12345678" : ℚ)))) :=
  c6_no_estimation exampleConfigB [chunkTextOnly] 200 {} 100 "12345678"
    (by intro c hc; simp at hc; rw [hc]; rfl) rfl rfl

/-- The responses collected by the Ollama fan-out are exactly the per-config
    results, in launch order. -/
theorem runOllamaModels_fst (outcome : OllamaEndpointConfig → Except String ModelMetrics)
    (l : List OllamaEndpointConfig) :
    (runOllamaModels outcome l).1 = l.map (fun c => (ollamaRun c (outcome c)).1) := by
  induction l with
  | nil => rfl
  | cons c cs ih => simp [runOllamaModels, ih]

/-- Same for the API fan-out. -/
theorem runApiModels_fst (outcome : ApiConfig → Except String ModelMetrics)
    (l : List ApiConfig) :
    (runApiModels outcome l).1 = l.map (fun c => (apiRun c (outcome c)).1) := by
  induction l with
  | nil => rfl
  | cons c cs ih => simp [runApiModels, ih]

/-- Exactly one error message is collected per failed Ollama run. -/
theorem runOllamaModels_snd_length
    (outcome : OllamaEndpointConfig → Except String ModelMetrics)
    (l : List OllamaEndpointConfig) :
    (runOllamaModels outcome l).2.length = l.countP (fun c => isFailure (outcome c)) := by
  induction l with
  | nil => rfl
  | cons c cs ih =>
    cases ho : outcome c <;>
      simp [runOllamaModels, ollamaRun, ho, List.countP_cons, isFailure, ih]

/-- Exactly one error message is collected per failed API run. -/
theorem runApiModels_snd_length (outcome : ApiConfig → Except String ModelMetrics)
    (l : List ApiConfig) :
    (runApiModels outcome l).2.length = l.countP (fun c => isFailure (outcome c)) := by
  induction l with
  | nil => rfl
  | cons c cs ih =>
    cases ho : outcome c <;>
      simp [runApiModels, apiRun, ho, List.countP_cons, isFailure, ih]

/-- Every error-tagged Ollama response carries the zeroed metrics object. -/
theorem runOllamaModels_error_metrics
    (outcome : OllamaEndpointConfig → Except String ModelMetrics)
    (l : List OllamaEndpointConfig) :
    ∀ resp ∈ (runOllamaModels outcome l).1, resp.error.isSome = true →
      resp.metrics = errorMetrics := by
  induction l with
  | nil => intro resp h; simp [runOllamaModels] at h
  | cons c cs ih =>
    intro resp hresp herr
    rw [runOllamaModels_fst] at hresp
    simp only [List.map_cons, List.mem_cons] at hresp
    rcases hresp with h | h
    · cases ho : outcome c
      · rw [h]
        simp [ollamaRun, ho]
      · rw [h] at herr
        simp [ollamaRun, ho] at herr
    · exact ih resp (by rw [runOllamaModels_fst]; simpa using h) herr

/-- Every error-tagged API response carries the zeroed metrics object. -/
theorem runApiModels_error_metrics (outcome : ApiConfig → Except String ModelMetrics)
    (l : List ApiConfig) :
    ∀ resp ∈ (runApiModels outcome l).1, resp.error.isSome = true →
      resp.metrics = errorMetrics := by
  induction l with
  | nil => intro resp h; simp [runApiModels] at h
  | cons c cs ih =>
    intro resp hresp herr
    rw [runApiModels_fst] at hresp
    simp only [List.map_cons, List.mem_cons] at hresp
    rcases hresp with h | h
    · cases ho : outcome c
      · rw [h]
        simp [apiRun, ho]
      · rw [h] at herr
        simp [apiRun, ho] at herr
    · exact ih resp (by rw [runApiModels_fst]; simpa using h) herr

/-- Reading the optional error list back defaults to the collected list. -/
theorem errors_getD (l : List String) :
    (if l.length > 0 then some l else none).getD [] = l := by
  cases l <;> simp

/-- C3: `compareModels` resolves for every prompt and configuration set (it
    is a total function of the per-model outcomes): there is exactly one
    response per launched configuration, each response is determined by its
    own configuration and outcome alone (so sibling runs are unaffected by a
    failure), exactly one error message is collected per failed run, and
    every error-tagged response carries zeroed metrics. -/
theorem c3_partial_failure (st : ComparisonServiceState) (prompt : String)
    (oOut : OllamaEndpointConfig → Except String ModelMetrics)
    (aOut : ApiConfig → Except String ModelMetrics) (timestamp : String) (totalTime : ℚ) :
    (compareModels st prompt oOut aOut timestamp totalTime).responses.length
        = (getActiveConfigs st).ollama.length + (getActiveConfigs st).api.length ∧
    (compareModels st prompt oOut aOut timestamp totalTime).responses
        = (getActiveConfigs st).ollama.map (fun c => (ollamaRun c (oOut c)).1)
          ++ (getActiveConfigs st).api.map (fun c => (apiRun c (aOut c)).1) ∧
    ((compareModels st prompt oOut aOut timestamp totalTime).errors.getD []).length
        = (getActiveConfigs st).ollama.countP (fun c => isFailure (oOut c))
          + (getActiveConfigs st).api.countP (fun c => isFailure (aOut c)) ∧
    (∀ resp ∈ (compareModels st prompt oOut aOut timestamp totalTime).responses,
      resp.error.isSome = true →
        resp.metrics.responseTime = JsNum.num 0 ∧
        resp.metrics.tokensPerSecond = JsNum.num 0 ∧
        resp.metrics.totalTokens = JsNum.num 0 ∧
        resp.metrics.promptTokens = JsNum.num 0 ∧
        resp.metrics.completionTokens = JsNum.num 0) := by
  refine ⟨?_, ?_, ?_, ?_⟩
  · simp [compareModels, runOllamaModels_fst, runApiModels_fst]
  · simp [compareModels, runOllamaModels_fst, runApiModels_fst]
  · simp only [compareModels]
    rw [errors_getD]
    simp only [List.length_append, runOllamaModels_snd_length, runApiModels_snd_length]
  · intro resp hresp herr
    simp only [compareModels, List.mem_append] at hresp
    have hmet : resp.metrics = errorMetrics := by
      rcases hresp with h | h
      · exact runOllamaModels_error_metrics oOut _ resp h herr
      · exact runApiModels_error_metrics aOut _ resp h herr
    rw [hmet]
    exact ⟨rfl, rfl, rfl, rfl, rfl⟩

/-- C3 witness: the partial-failure scenario — two enabled models, the second
    failing with an HTTP 500 — yields 2 responses, exactly 1 error message,
    the failing entry error-tagged with zeroed metrics and the successful
    entry untouched. -/
theorem c3_witness :
    (compareModels partialFailureState "Explain LRU caches" partialFailureOutcome
        noApiOutcome "t0" 1500).responses.length = 2 ∧
    ((compareModels partialFailureState "Explain LRU caches" partialFailureOutcome
        noApiOutcome "t0" 1500).errors.getD []).length = 1 ∧
    ((compareModels partialFailureState "Explain LRU caches" partialFailureOutcome
        noApiOutcome "t0" 1500).responses.map (fun r => r.error.isSome)) = [false, true] ∧
    ((compareModels partialFailureState "Explain LRU caches" partialFailureOutcome
        noApiOutcome "t0" 1500).responses.map (fun r => r.metrics))
      = [exampleMetrics, errorMetrics] := by
  have h := c3_partial_failure partialFailureState "Explain LRU caches" partialFailureOutcome
    noApiOutcome "t0" 1500
  refine ⟨h.1.trans (by decide), h.2.2.1.trans (by decide), ?_, ?_⟩
  · rw [h.2.1]
    decide
  · rw [h.2.1]
    decide

/-- The cubic ease stays inside the closed interval spanned by its
    endpoints for any progress in `[0, 1]`. -/
theorem cubicInterpolate_bounds (a b prog : ℚ) (h0 : 0 ≤ prog) (h1 : prog ≤ 1) :
    min a b ≤ cubicInterpolate a b prog ∧ cubicInterpolate a b prog ≤ max a b := by
  have ht0 : 0 ≤ prog * prog * (3 - 2 * prog) := by nlinarith
  have ht1 : prog * prog * (3 - 2 * prog) ≤ 1 := by
    nlinarith [mul_nonneg (sq_nonneg (1 - prog)) (by linarith : (0 : ℚ) ≤ 1 + 2 * prog)]
  simp only [cubicInterpolate]
  rcases le_total a b with hab | hab
  · rw [min_eq_left hab, max_eq_right hab]
    constructor <;> nlinarith
  · rw [min_eq_right hab, max_eq_left hab]
    constructor <;> nlinarith

/-- Above the `2×timeStep` threshold the step count is at least 2. -/
theorem interpSteps_ge_two (d : ℚ) (hd : timeStep * 2 < d) : 2 ≤ interpSteps d := by
  have hq : (2 : ℚ) ≤ d / 50 := by
    rw [le_div_iff₀ (by norm_num : (0 : ℚ) < 50)]
    unfold timeStep at hd
    linarith
  have hz : (2 : ℤ) ≤ ⌊d / 50⌋ := Int.le_floor.mpr (by exact_mod_cast hq)
  unfold interpSteps timeStep
  have h20 : (2 : ℕ) ≤ 20 := by norm_num
  exact Nat.le_min.mpr ⟨by omega, h20⟩

/-- Looking up a key of a key-indexed `filterMap` returns that key's value. -/
theorem lookup_filterMap_of_not_mem (keys : List String)
    (g : String → Option (Option ℚ)) (k : String) (hk : k ∉ keys) :
    (keys.filterMap (fun x => (g x).map (fun v => (x, v)))).lookup k = none := by
  induction keys with
  | nil => rfl
  | cons k' ks ih =>
    have hne : k ≠ k' := fun h => hk (h ▸ List.mem_cons_self k' ks)
    have hks : k ∉ ks := fun h => hk (List.mem_cons_of_mem k' h)
    cases hg : g k' with
    | none => simpa [List.filterMap_cons, hg] using ih hks
    | some v =>
      simp [List.filterMap_cons, hg, List.lookup_cons, beq_eq_false_iff_ne.mpr hne, ih hks]

/-- Looking up a member key of a key-indexed `filterMap` returns exactly the
    generator's value at that key. -/
theorem lookup_filterMap_of_mem (keys : List String)
    (g : String → Option (Option ℚ)) (k : String) (hk : k ∈ keys) :
    (keys.filterMap (fun x => (g x).map (fun v => (x, v)))).lookup k = g k := by
  induction keys with
  | nil => exact absurd hk (List.not_mem_nil k)
  | cons k' ks ih =>
    rcases eq_or_ne k k' with rfl | hne
    · cases hg : g k with
      | some v => simp [List.filterMap_cons, hg, List.lookup_cons]
      | none =>
        simp only [List.filterMap_cons, hg, Option.map_none']
        by_cases hmem : k ∈ ks
        · rw [ih hmem, hg]
        · rw [lookup_filterMap_of_not_mem ks g k hmem]
    · have hks : k ∈ ks := (List.mem_cons.mp hk).resolve_left hne
      cases hg : g k' with
      | none => simpa [List.filterMap_cons, hg] using ih hks
      | some v =>
        simp [List.filterMap_cons, hg, List.lookup_cons, beq_eq_false_iff_ne.mpr hne, ih hks]

/-- C8: synthetic points are inserted between two consecutive real points
    only when their gap exceeds `2×timeStep` (100ms); at most 20 synthetic
    points are inserted per gap; and wherever both real endpoints carry a
    number, each synthetic value is the cubic ease
    `t = progress²(3 − 2·progress)` applied between them at some progress
    strictly between 0 and 1 — hence it lies within the closed interval
    spanned by the two endpoint values (no overshoot). -/
theorem c8_cubic_interpolation (keys : List String) (cur nxt : NormPoint) :
    (nxt.timestamp - cur.timestamp ≤ timeStep * 2 → interpPoints keys cur nxt = []) ∧
    (interpPoints keys cur nxt).length ≤ 20 ∧
    (∀ pt ∈ interpPoints keys cur nxt, ∀ k, k ∈ keys → ∀ a b : ℚ,
      cur.read k = some (some a) → nxt.read k = some (some b) →
      ∃ progress : ℚ, 0 < progress ∧ progress < 1 ∧
        pt.read k = some (some (cubicInterpolate a b progress)) ∧
        min a b ≤ cubicInterpolate a b progress ∧
        cubicInterpolate a b progress ≤ max a b) := by
  refine ⟨?_, ?_, ?_⟩
  · intro h
    unfold interpPoints
    rw [if_neg (not_lt.mpr h)]
  · unfold interpPoints
    by_cases hd : timeStep * 2 < nxt.timestamp - cur.timestamp
    · rw [if_pos hd]
      have h20 := Nat.min_le_right (Int.toNat ⌊(nxt.timestamp - cur.timestamp) / timeStep⌋) 20
      simp only [List.length_map, List.length_range']
      unfold interpSteps
      unfold timeStep at h20 ⊢
      omega
    · rw [if_neg hd]
      norm_num
  · intro pt hpt k hk a b hca hcb
    unfold interpPoints at hpt
    by_cases hd : timeStep * 2 < nxt.timestamp - cur.timestamp
    · rw [if_pos hd] at hpt
      simp only [List.mem_map, List.mem_range'] at hpt
      obtain ⟨step, ⟨i, hi, hstep⟩, rfl⟩ := hpt
      have hsteps2 : 2 ≤ interpSteps (nxt.timestamp - cur.timestamp) := interpSteps_ge_two _ hd
      have hstep1 : 1 ≤ step := by omega
      have hsteplt : step < interpSteps (nxt.timestamp - cur.timestamp) := by omega
      have hstepsq : (0 : ℚ) < (interpSteps (nxt.timestamp - cur.timestamp) : ℚ) := by
        exact_mod_cast Nat.lt_of_lt_of_le (by norm_num) hsteps2
      have hprog0 : 0 < (step : ℚ) / (interpSteps (nxt.timestamp - cur.timestamp) : ℚ) :=
        div_pos (by exact_mod_cast hstep1) hstepsq
      have hprog1 : (step : ℚ) / (interpSteps (nxt.timestamp - cur.timestamp) : ℚ) < 1 :=
        (div_lt_one hstepsq).mpr (by exact_mod_cast hsteplt)
      refine ⟨(step : ℚ) / (interpSteps (nxt.timestamp - cur.timestamp) : ℚ),
        hprog0, hprog1, ?_, ?_⟩
      · show (_ : NormPoint).read k = _
        unfold NormPoint.read
        rw [lookup_filterMap_of_mem keys _ k hk]
        unfold interpValue
        rw [hca, hcb]
      · exact cubicInterpolate_bounds a b _ hprog0.le hprog1.le
    · rw [if_neg hd] at hpt
      simp at hpt

/-- C8 witness: an 80ms gap (below the 100ms threshold) between the concrete
    points produces no synthetic point. -/
theorem c8_witness : interpPoints ["A"] normStart normNear = [] :=
  (c8_cubic_interpolation ["A"] normStart normNear).1
    (by norm_num [normStart, normNear, timeStep])

/-- Membership through stable insertion. -/
theorem mem_insertByTime (p x : PerfPoint) (l : List PerfPoint) :
    x ∈ insertByTime p l ↔ x = p ∨ x ∈ l := by
  induction l with
  | nil => simp [insertByTime]
  | cons q qs ih =>
    simp only [insertByTime]
    by_cases h : q.timestamp < p.timestamp
    · rw [if_pos h]
      simp only [List.mem_cons, ih]
      tauto
    · rw [if_neg h]
      simp only [List.mem_cons]

/-- Sorting permutes: membership is unchanged. -/
theorem mem_sortByTime (x : PerfPoint) (l : List PerfPoint) :
    x ∈ sortByTime l ↔ x ∈ l := by
  induction l with
  | nil => simp [sortByTime]
  | cons p ps ih =>
    show x ∈ insertByTime p (sortByTime ps) ↔ _
    rw [mem_insertByTime, ih]
    simp

/-- With no model selection, adding a point's keys to the accumulator yields
    exactly the union of the two key sets. -/
theorem mem_addPointKeys (acc : List String) (p : PerfPoint) (k : String) :
    k ∈ addPointKeys [] acc p ↔ k ∈ acc ∨ k ∈ p.values.map Prod.fst := by
  obtain ⟨ts, vals⟩ := p
  show k ∈ vals.foldl _ acc ↔ _
  induction vals generalizing acc with
  | nil => simp
  | cons kv rest ih =>
    simp only [List.foldl_cons, ih, List.map_cons, List.mem_cons]
    have hstep : k ∈ (if keyAllowed [] kv.1 && !(acc.contains kv.1)
        then acc ++ [kv.1] else acc) ↔ k ∈ acc ∨ k = kv.1 := by
      by_cases hc : kv.1 ∈ acc
      · rw [if_neg (by simp [keyAllowed, hc])]
        constructor
        · exact fun h => Or.inl h
        · rintro (h | rfl)
          · exact h
          · exact hc
      · rw [if_pos (by simp [keyAllowed, hc])]
        simp only [List.mem_append, List.mem_singleton]
    rw [hstep]
    tauto

/-- The insertion-ordered key union contains exactly the keys occurring in
    some point of the buffer. -/
theorem mem_allModelKeys (pts : List PerfPoint) (k : String) :
    k ∈ allModelKeys [] pts ↔ ∃ p ∈ pts, k ∈ p.values.map Prod.fst := by
  unfold allModelKeys
  suffices h : ∀ acc, k ∈ pts.foldl (addPointKeys []) acc ↔
      k ∈ acc ∨ ∃ p ∈ pts, k ∈ p.values.map Prod.fst by
    simpa using h []
  intro acc
  induction pts generalizing acc with
  | nil => simp
  | cons p ps ih =>
    simp only [List.foldl_cons, ih, mem_addPointKeys, List.mem_cons]
    constructor
    · rintro ((h | h) | ⟨q, hq, hkq⟩)
      · exact Or.inl h
      · exact Or.inr ⟨p, Or.inl rfl, h⟩
      · exact Or.inr ⟨q, Or.inr hq, hkq⟩
    · rintro (h | ⟨q, rfl | hq, hkq⟩)
      · exact Or.inl (Or.inl h)
      · exact Or.inl (Or.inr hkq)
      · exact Or.inr ⟨q, hq, hkq⟩

/-- Reading a union key off a normalised point yields the original point's
    value, with `null` (`some none`) exactly when the key is absent there. -/
theorem normalizePoint_read (keys : List String) (p : PerfPoint) (k : String)
    (hk : k ∈ keys) :
    (normalizePoint keys p).read k = some (p.values.lookup k) := by
  unfold normalizePoint NormPoint.read
  induction keys with
  | nil => exact absurd hk (List.not_mem_nil k)
  | cons k' ks ih =>
    rcases eq_or_ne k k' with rfl | hne
    · simp [List.lookup_cons]
    · have hks : k ∈ ks := (List.mem_cons.mp hk).resolve_left hne
      simpa [List.lookup_cons, beq_eq_false_iff_ne.mpr hne] using ih hks

/-- A normalised point carries exactly the union keys, in order. -/
theorem normalizePoint_keys (keys : List String) (p : PerfPoint) :
    (normalizePoint keys p).values.map Prod.fst = keys := by
  unfold normalizePoint
  rw [List.map_map]
  simp [Function.comp_def]

/-- A key occurring in an association list is found by `lookup`. -/
theorem lookup_isSome_of_mem_fst (l : List (String × Option ℚ)) (k : String)
    (hk : k ∈ l.map Prod.fst) : (l.lookup k).isSome = true := by
  induction l with
  | nil => simp at hk
  | cons kv rest ih =>
    obtain ⟨k', v⟩ := kv
    rcases eq_or_ne k k' with rfl | hne
    · simp [List.lookup_cons]
    · have hks : k ∈ rest.map Prod.fst := by
        rcases List.mem_cons.mp hk with h | h
        · exact absurd h hne
        · exact h
      rw [List.lookup_cons]
      simp only [beq_eq_false_iff_ne.mpr hne]
      exact ih hks

/-- A key-indexed `filterMap` with a total generator keeps the key list. -/
theorem filterMap_keys_eq (keys : List String) (g : String → Option (Option ℚ))
    (hg : ∀ k ∈ keys, (g k).isSome = true) :
    (keys.filterMap (fun x => (g x).map (fun v => (x, v)))).map Prod.fst = keys := by
  induction keys with
  | nil => rfl
  | cons k ks ih =>
    obtain ⟨v, hv⟩ := Option.isSome_iff_exists.mp (hg k (List.mem_cons_self k ks))
    have hrest := ih (fun k' hk' => hg k' (List.mem_cons_of_mem k hk'))
    simp [List.filterMap_cons, hv, hrest]

/-- The interpolated value is defined wherever the current point defines the
    key. -/
theorem interpValue_isSome (cur nxt : NormPoint) (progress : ℚ) (k : String)
    (h : (cur.read k).isSome = true) :
    (interpValue cur nxt progress k).isSome = true := by
  obtain ⟨v, hv⟩ := Option.isSome_iff_exists.mp h
  unfold interpValue
  rcases v with _ | a <;> rcases hn : nxt.read k with _ | (_ | b) <;> simp [hv, hn]

/-- Every synthetic point carries exactly the union keys. -/
theorem interpPoints_keys (keys : List String) (cur nxt : NormPoint)
    (hcur : cur.values.map Prod.fst = keys) :
    ∀ pt ∈ interpPoints keys cur nxt, pt.values.map Prod.fst = keys := by
  intro pt hpt
  unfold interpPoints at hpt
  by_cases hd : timeStep * 2 < nxt.timestamp - cur.timestamp
  · rw [if_pos hd] at hpt
    simp only [List.mem_map] at hpt
    obtain ⟨step, _, rfl⟩ := hpt
    refine filterMap_keys_eq keys _ (fun k hk => ?_)
    refine interpValue_isSome cur nxt _ k ?_
    exact lookup_isSome_of_mem_fst cur.values k (by rw [hcur]; exact hk)
  · rw [if_neg hd] at hpt
    simp at hpt

/-- Every input point of the main loop appears in its output. -/
theorem mem_buildPoints (keys : List String) :
    ∀ (pts : List NormPoint) (x : NormPoint), x ∈ pts → x ∈ buildPoints keys pts
  | [], x, hx => absurd hx (List.not_mem_nil x)
  | [p], x, hx => by simpa [buildPoints] using hx
  | p :: q :: rest, x, hx => by
    rcases List.mem_cons.mp hx with rfl | hx'
    · simp [buildPoints]
    · have h := mem_buildPoints keys (q :: rest) x hx'
      simp only [buildPoints, List.mem_cons, List.mem_append]
      tauto

/-- Every output point of the main loop carries exactly the union keys,
    provided every input point does. -/
theorem buildPoints_keys (keys : List String) :
    ∀ (pts : List NormPoint), (∀ p ∈ pts, p.values.map Prod.fst = keys) →
      ∀ pt ∈ buildPoints keys pts, pt.values.map Prod.fst = keys
  | [], _, pt, hpt => absurd hpt (by simp [buildPoints])
  | [p], h, pt, hpt => by
    have : pt = p := by simpa [buildPoints] using hpt
    exact this ▸ h p (by simp)
  | p :: q :: rest, h, pt, hpt => by
    simp only [buildPoints, List.mem_cons, List.mem_append] at hpt
    rcases hpt with rfl | hpt | hpt
    · exact h pt (by simp)
    · exact interpPoints_keys keys p q (h p (by simp)) pt hpt
    · exact buildPoints_keys keys (q :: rest)
        (fun x hx => h x (List.mem_cons_of_mem p hx)) pt hpt

/-- C9: for a buffer of at least two points, every output point of the chart
    preprocessor carries exactly the union of model keys over all input
    points; a key belongs to that union exactly when some input point carries
    it; and every input point appears normalised in the output, reading
    `some v` where the point has the value `v` and `null` where it has none
    at that timestamp. -/
theorem c9_gap_normalization (data : List PerfPoint) (h2 : 2 ≤ data.length) :
    (∀ pt ∈ processedData [] data,
        pt.values.map Prod.fst = allModelKeys [] (sortByTime data)) ∧
    (∀ k, k ∈ allModelKeys [] (sortByTime data) ↔
        ∃ p ∈ data, k ∈ p.values.map Prod.fst) ∧
    (∀ p ∈ data,
        normalizePoint (allModelKeys [] (sortByTime data)) p ∈ processedData [] data ∧
        ∀ k ∈ allModelKeys [] (sortByTime data),
          (normalizePoint (allModelKeys [] (sortByTime data)) p).read k
            = some (p.values.lookup k)) := by
  obtain ⟨d1, d2, ds, rfl⟩ : ∃ d1 d2 ds, data = d1 :: d2 :: ds := by
    match data, h2 with
    | d1 :: d2 :: ds, _ => exact ⟨d1, d2, ds, rfl⟩
  have hproc : processedData [] (d1 :: d2 :: ds)
      = buildPoints (allModelKeys [] (sortByTime (d1 :: d2 :: ds)))
          ((sortByTime (d1 :: d2 :: ds)).map
            (normalizePoint (allModelKeys [] (sortByTime (d1 :: d2 :: ds))))) := rfl
  refine ⟨?_, ?_, ?_⟩
  · intro pt hpt
    rw [hproc] at hpt
    refine buildPoints_keys _ _ (fun p hp => ?_) pt hpt
    obtain ⟨q, _, rfl⟩ := List.mem_map.mp hp
    exact normalizePoint_keys _ q
  · intro k
    rw [mem_allModelKeys]
    constructor
    · rintro ⟨p, hp, hkp⟩
      exact ⟨p, (mem_sortByTime p _).mp hp, hkp⟩
    · rintro ⟨p, hp, hkp⟩
      exact ⟨p, (mem_sortByTime p _).mpr hp, hkp⟩
  · intro p hp
    refine ⟨?_, fun k hk => normalizePoint_read _ p k hk⟩
    rw [hproc]
    exact mem_buildPoints _ _ _
      (List.mem_map_of_mem _ ((mem_sortByTime p _).mpr hp))

/-- C9 witness: the documented example — model A at t=0 and t=100, model B
    only at t=50 — instantiating the normalisation theorem. -/
theorem c9_witness :
    (∀ pt ∈ processedData [] [pointA0, pointB1, pointA2],
        pt.values.map Prod.fst
          = allModelKeys [] (sortByTime [pointA0, pointB1, pointA2])) ∧
    (∀ k, k ∈ allModelKeys [] (sortByTime [pointA0, pointB1, pointA2]) ↔
        ∃ p ∈ [pointA0, pointB1, pointA2], k ∈ p.values.map Prod.fst) ∧
    (∀ p ∈ [pointA0, pointB1, pointA2],
        normalizePoint (allModelKeys [] (sortByTime [pointA0, pointB1, pointA2])) p
            ∈ processedData [] [pointA0, pointB1, pointA2] ∧
        ∀ k ∈ allModelKeys [] (sortByTime [pointA0, pointB1, pointA2]),
          (normalizePoint (allModelKeys [] (sortByTime [pointA0, pointB1, pointA2])) p).read k
            = some (p.values.lookup k)) :=
  c9_gap_normalization [pointA0, pointB1, pointA2] (by norm_num)

/-- C10: the chart preprocessor maps an empty buffer to empty output, and a
    single-point buffer to exactly two points 100ms apart carrying identical
    per-model values (the first being the input point itself). -/
theorem c10_degenerate_cases (sel : List String) (p : PerfPoint) :
    processedData sel [] = [] ∧
    (processedData sel [p]).length = 2 ∧
    ∃ q1 q2, processedData sel [p] = [q1, q2] ∧
      q2.timestamp = q1.timestamp + 100 ∧ q2.values = q1.values ∧ q1 = toNormPoint p := by
  exact ⟨rfl, rfl, toNormPoint p,
    { toNormPoint p with timestamp := p.timestamp + 100 }, rfl, rfl, rfl, rfl⟩

end LlmCompare
